import Mathlib

/-!
Verification of the pooplace core: the palette helpers in
`src/place/colors.py` and the account / pool scheduling logic in
`src/place/user.py`, shallowly embedded in Lean.

Python integers are modelled as `Nat`/`Int`; bit operations keep the
source's `&&&`/`|||`/shifts.  Wall-clock instants and the millisecond
timestamps from the remote service are modelled as rationals `ℚ`, so
that the source's `/ 1000` division is exact.  Functions that can raise
are modelled with explicit error results.
-/

namespace Pooplace

/-! ### Palette helpers — `src/place/colors.py`

`_FLT = 0xFF`; `unpack` extracts the three bytes, `pack` combines them
(red low byte, green middle, blue high). -/

def _FLT : Nat := 0xFF

def unpack (color : Nat) : Nat × Nat × Nat :=
  (color &&& _FLT, (color >>> 8) &&& _FLT, (color >>> 16) &&& _FLT)

def pack (r g b : Nat) : Nat :=
  (_FLT &&& r) ||| ((_FLT &&& g) <<< 8) ||| ((_FLT &&& b) <<< 16)

/-! ### The palette enumeration and nearest-colour search

`RedditColor` is the `Enum` from `src/place/colors.py`, members in
definition order.  `_color_map` is the module-level dict: note that key
`1` maps to the *empty* tuple `()`, and that the enum members `GREEN (7)`,
`DARK_TEAL (9)`, `TEAL (10)`, `INDIGO (15)`, `PERIWINKLE (16)`,
`PINK (22)` and `DARK_BROWN (24)` have *no* entry in the dict at all.

`to_tuple` does `_color_map[self.value]` (a missing key raises `KeyError`)
and the caller unpacks the tuple into three variables (a tuple that is not
a triple raises `ValueError`).  Both failure modes are modelled with an
explicit error type. -/

inductive RedditColor where
  | DARK_RED | RED | ORANGE | YELLOW
  | DARK_GREEN | GREEN | LIGHT_GREEN | DARK_TEAL | TEAL
  | DARK_BLUE | BLUE | CYAN | INDIGO | PERIWINKLE
  | DARK_PURPLE | PURPLE | PINK | LIGHT_PINK | DARK_BROWN | BROWN
  | BLACK | GREY | LIGHT_GREY | WHITE
  deriving DecidableEq, Repr

namespace RedditColor

def value : RedditColor → Nat
  | DARK_RED => 1 | RED => 2 | ORANGE => 3 | YELLOW => 4
  | DARK_GREEN => 6 | GREEN => 7 | LIGHT_GREEN => 8 | DARK_TEAL => 9
  | TEAL => 10 | DARK_BLUE => 12 | BLUE => 13 | CYAN => 14
  | INDIGO => 15 | PERIWINKLE => 16 | DARK_PURPLE => 18 | PURPLE => 19
  | PINK => 22 | LIGHT_PINK => 23 | DARK_BROWN => 24 | BROWN => 25
  | BLACK => 27 | GREY => 29 | LIGHT_GREY => 30 | WHITE => 31

/-- Iteration order of `for color in cls`: enum definition order. -/
def enumMembers : List RedditColor :=
  [DARK_RED, RED, ORANGE, YELLOW,
   DARK_GREEN, GREEN, LIGHT_GREEN, DARK_TEAL, TEAL,
   DARK_BLUE, BLUE, CYAN, INDIGO, PERIWINKLE,
   DARK_PURPLE, PURPLE, PINK, LIGHT_PINK, DARK_BROWN, BROWN,
   BLACK, GREY, LIGHT_GREY, WHITE]

end RedditColor

/-- The `_color_map` dict.  `some l` means the key is present with tuple
`l` (as a list, since the tuple at key `1` is empty); `none` means the key
is absent. -/
def _color_map (k : Nat) : Option (List Int) :=
  if k = 1 then some []
  else if k = 2 then some [255, 69, 0]
  else if k = 3 then some [255, 168, 0]
  else if k = 4 then some [255, 214, 53]
  else if k = 6 then some [0, 163, 104]
  else if k = 8 then some [126, 237, 86]
  else if k = 12 then some [36, 80, 164]
  else if k = 13 then some [54, 144, 234]
  else if k = 14 then some [81, 233, 244]
  else if k = 18 then some [129, 30, 159]
  else if k = 19 then some [180, 74, 192]
  else if k = 23 then some [255, 153, 170]
  else if k = 25 then some [156, 105, 38]
  else if k = 27 then some [0, 0, 0]
  else if k = 29 then some [137, 141, 144]
  else if k = 30 then some [212, 215, 217]
  else if k = 31 then some [255, 255, 255]
  else none

/-- Python exceptions the nearest-colour search can raise: `KeyError` from
`_color_map[self.value]`, `ValueError` from unpacking a tuple that is not
a triple. -/
inductive PyError where
  | keyError (k : Nat)
  | valueError (k : Nat)
  deriving DecidableEq, Repr

/-- `RedditColor.to_tuple` followed by the caller's `cr, cg, cb = ...`
unpacking: look the value up in `_color_map` and require a triple. -/
def to_tuple3 (c : RedditColor) : Except PyError (Int × Int × Int) :=
  match _color_map c.value with
  | none => .error (.keyError c.value)
  | some [cr, cg, cb] => .ok (cr, cg, cb)
  | some _ => .error (.valueError c.value)

/-- One step of the `closest` loop.  The source compares
`math.sqrt ((r-cr)^2 + (g-cg)^2 + (b-cb)^2)` with `<`; `sqrt` is strictly
monotone on nonnegative reals, so comparing squared distances is
equivalent, and the squared distances (integers `≤ 3·255²`) are exact in
floating point. -/
def closestGo (r g b : Int) :
    List RedditColor → Option (RedditColor × Int) →
    Except PyError (Option RedditColor)
  | [], acc => .ok (acc.map Prod.fst)
  | c :: rest, acc =>
    match to_tuple3 c with
    | .error e => .error e
    | .ok (cr, cg, cb) =>
      let d := (r - cr) ^ 2 + (g - cg) ^ 2 + (b - cb) ^ 2
      match acc with
      | none => closestGo r g b rest (some (c, d))
      | some (bc, bd) =>
        if d < bd then closestGo r g b rest (some (c, d))
        else closestGo r g b rest (some (bc, bd))

/-- `RedditColor.closest`: scan all enum members in definition order,
keeping the first member of minimal distance. -/
def closest (r g b : Int) : Except PyError (Option RedditColor) :=
  closestGo r g b RedditColor.enumMembers none

/-! ### Accounts — `src/place/user.py`

A `User` holds `id`, `name`, `token`, optional `refresh` and optional
`next` (absolute next-eligible time in seconds).  Times are rationals:
the source stores `nextAvailablePixelTimestamp / 1000`, an exact division
here. -/

structure User where
  id : String
  name : String
  token : String
  refresh : Option String
  next : Option ℚ
  deriving DecidableEq, Repr

/-- Python truthiness-based defaulting `self.next or 0`: `None` and `0`
are falsy and give `0`, any other value passes through. -/
def pyOrZero (x : Option ℚ) : ℚ :=
  match x with
  | none => 0
  | some v => if v = 0 then 0 else v

/-- `User.cooldown`: `(self.next or 0) - time()`. -/
def User.cooldown (u : User) (now : ℚ) : ℚ :=
  pyOrZero u.next - now

/-! ### The set-pixel response and `User.put`

Only the fields the source reads are modelled.  `success` is the
`answ['success']` entry (absent = `none`); `errorReason` is
`answ['error']['reason']` when `answ['error']` is present and truthy with
a `reason` key, `none` otherwise; `dataActs` is the list
`answ['data']['act']['data']` when `answ['data']` is present and truthy,
each act contributing its optional `nextAvailablePixelTimestamp`
(milliseconds); `errors` is the `answ['errors']` list when present and
truthy, each entry contributing its optional `extensions` with an
optional `nextAvailablePixelTs` (milliseconds). -/

structure ErrEntry where
  extensions : Option (Option ℚ)
  deriving DecidableEq, Repr

structure Response where
  success : Option Bool
  errorReason : Option String
  dataActs : Option (List (Option ℚ))
  errors : Option (List ErrEntry)
  deriving DecidableEq, Repr

/-- The guard
`'success' in answ and not answ['success'] and 'error' in answ and
answ['error'] and 'reason' in answ['error'] and
answ['error']['reason'] == 'UNAUTHORIZED'`. -/
def isUnauthorizedShape (resp : Response) : Bool :=
  match resp.success, resp.errorReason with
  | some false, some r => r == "UNAUTHORIZED"
  | _, _ => false

/-- The `UnauthorizedError` exception: message and `refreshable` flag
(default `true` in the source constructor). -/
structure UnauthorizedErr where
  message : String
  refreshable : Bool
  deriving DecidableEq, Repr

/-- Result of `User.put`: a returned value (`none` for Python's implicit
`None` fall-through) or a raised `UnauthorizedError`. -/
inductive PutResult where
  | ret (b : Option Bool)
  | raised (e : UnauthorizedErr)
  deriving DecidableEq, Repr

/-- First act in `answ['data']['act']['data']` whose `data` contains
`nextAvailablePixelTimestamp` (acts without it are skipped). -/
def firstActTs : List (Option ℚ) → Option ℚ
  | [] => none
  | some ts :: _ => some ts
  | none :: rest => firstActTs rest

/-- First entry of `answ['errors']` that has `extensions` containing
`nextAvailablePixelTs`. -/
def firstErrTs : List ErrEntry → Option ℚ
  | [] => none
  | ⟨some (some ts)⟩ :: _ => some ts
  | _ :: rest => firstErrTs rest

/-- The sanity threshold `60 * 60 * 24 * 31` seconds. -/
def monthSeconds : ℚ := 60 * 60 * 24 * 31

/-- The `errors` branch of `User.put`: on the first entry carrying
`nextAvailablePixelTs`, set `self.next = ts / 1000`, raise the
non-refreshable `UnauthorizedError` if `self.next` is truthy and more
than 31 days ahead, else return `False`; with no such entry fall through
to the implicit `None`. -/
def putErrorsBranch (u : User) (resp : Response) (now : ℚ) :
    User × PutResult :=
  match resp.errors with
  | none => (u, .ret none)
  | some errs =>
    match firstErrTs errs with
    | none => (u, .ret none)
    | some ts =>
      let nxt := ts / 1000
      let u' := { u with next := some nxt }
      if nxt ≠ 0 ∧ nxt - now > monthSeconds then
        (u', .raised ⟨"Rate limited: cooldown too long", false⟩)
      else (u', .ret (some false))

/-- `User.put` after the HTTP exchange, as a function of the decoded
response and the current time: returns the mutated user and the
outcome.  Branch order follows the source: the UNAUTHORIZED shape check,
then the `data` acts (first act with `nextAvailablePixelTimestamp` sets
`self.next = ts / 1000`, raises non-refreshable if the new cooldown
exceeds 31 days, else returns `True`), then the `errors` entries, then
the implicit `None`. -/
def User.put (u : User) (resp : Response) (now : ℚ) : User × PutResult :=
  if isUnauthorizedShape resp then
    (u, .raised ⟨"unauthorized response", true⟩)
  else
    match resp.dataActs with
    | none => putErrorsBranch u resp now
    | some acts =>
      match firstActTs acts with
      | none => putErrorsBranch u resp now
      | some ts =>
        let nxt := ts / 1000
        let u' := { u with next := some nxt }
        if nxt ≠ 0 ∧ nxt - now > monthSeconds then
          (u', .raised ⟨"Rate limited: cooldown too long", false⟩)
        else (u', .ret (some true))

/-- `User.refresh_token`, with the network exchange abstracted into the
new token and re-fetched name it would deliver on success.  The guard
`if not self.refresh or self.refresh == "null"` raises
`UnauthorizedError("No refresh token")` — with the constructor's default
`refreshable = True` — before any mutation; `not self.refresh` is true
for an absent refresh token and for the empty string. -/
def User.refresh_token (u : User) (newToken newName : String) :
    User × Option UnauthorizedErr :=
  if u.refresh = none ∨ u.refresh = some "" ∨ u.refresh = some "null" then
    (u, some ⟨"No refresh token", true⟩)
  else
    ({ u with token := newToken, name := newName }, none)

/-! ### Persistence — `User.as_dict` and `Pool.__init__` loading

A persisted record: `id`, `name`, `token` are always written; `refresh`
is a string or JSON `null`; `next` is a number or JSON `null`. -/

structure Record where
  id : String
  name : String
  token : String
  refresh : Option String
  next : Option ℚ
  deriving DecidableEq, Repr

/-- Python truthiness-based `x or None` for an optional string: `None`
and the empty string are falsy and give `None`. -/
def pyOrNoneStr (x : Option String) : Option String :=
  match x with
  | none => none
  | some s => if s = "" then none else some s

/-- Python truthiness-based `x or None` for an optional number: `None`
and `0` are falsy and give `None`. -/
def pyOrNoneQ (x : Option ℚ) : Option ℚ :=
  match x with
  | none => none
  | some v => if v = 0 then none else some v

/-- `User.as_dict`: the record `Pool.serialize` writes for one user,
with `"refresh": self.refresh or None` and `"next": self.next or None`. -/
def User.as_dict (u : User) : Record :=
  ⟨u.id, u.name, u.token, pyOrNoneStr u.refresh, pyOrNoneQ u.next⟩

/-- One element of the `Pool.__init__` loading loop:
`el["refresh"] if "refresh" in el and el["refresh"] != "null" else None`
(a JSON `null` value is not the string `"null"`, so it loads as `None`),
likewise for `next` (a number is never equal to `"null"`), and
`id=el["id"]` (always present in a saved record). -/
def loadUser (r : Record) : User :=
  ⟨r.id, r.name, r.token,
   match r.refresh with
   | none => none
   | some s => if s = "null" then none else some s,
   r.next⟩

/-- `save` then `load` for one user: `loadUser` applied to `as_dict`. -/
def saveLoad (u : User) : User :=
  loadUser u.as_dict

/-- The account-equality the claim asks for: equal by id, name, token,
refresh and next after normalising the literal `"null"` refresh sentinel
and absent fields to absent.  Modelled from the spec's words ("with
absent and literal `\x22null\x22`-sentinel refresh/next fields both
normalized to absent") for comparison with `saveLoad`. -/
def specNormalize (u : User) : User :=
  { u with refresh := match u.refresh with
                      | some s => if s = "null" then none else some s
                      | none => none }

/-! ### The pool — ordered collection of users -/

/-- `Pool.any`: `any(u.cooldown <= 0 for u in self)`. -/
def poolAny (users : List User) (now : ℚ) : Bool :=
  users.any (fun u => u.cooldown now ≤ 0)

/-- `Pool.ready`: `sum(1 for u in self.users if u.cooldown <= 0)`. -/
def poolReady (users : List User) (now : ℚ) : Nat :=
  users.countP (fun u => u.cooldown now ≤ 0)

/-- One iteration of the `Pool.best` scan: keep the current best unless
the new user's cooldown is strictly smaller. -/
def bestStep (now : ℚ) (acc : Option (User × ℚ)) (u : User) :
    Option (User × ℚ) :=
  match acc with
  | none => some (u, u.cooldown now)
  | some (bu, bcd) =>
    if u.cooldown now < bcd then some (u, u.cooldown now)
    else some (bu, bcd)

/-- `Pool.best`: scan keeping the strictly smaller cooldown; `None` on an
empty pool. -/
def poolBest (users : List User) (now : ℚ) : Option User :=
  (users.foldl (bestStep now) none).map Prod.fst

/-- Result of `Pool.put`: a returned boolean or the `UnauthorizedError`
propagated from the chosen user's `put`. -/
inductive PoolPutResult where
  | ret (b : Bool)
  | raised (e : UnauthorizedErr)
  deriving DecidableEq, Repr

/-- `Pool.put`: scan `self.users` in order; at the first user with
`cooldown <= 0`, run that user's `put` (its returned value is discarded)
and return `True`; if the delegate raises, the exception propagates; if
no user is eligible return `False`.  The updated list carries the chosen
user's mutation. -/
def poolPut (resp : Response) (now : ℚ) :
    List User → List User × PoolPutResult
  | [] => ([], .ret false)
  | u :: rest =>
    if u.cooldown now ≤ 0 then
      match u.put resp now with
      | (u', .ret _) => (u' :: rest, .ret true)
      | (u', .raised e) => (u' :: rest, .raised e)
    else
      let (rest', res) := poolPut resp now rest
      (u :: rest', res)

/-! ### Concrete accounts and responses used in example statements -/

/-- Cooldown `-5` at time `100`. -/
def exampleA : User := ⟨"idA", "alice", "tokA", none, some 95⟩

/-- Cooldown `10` at time `100`. -/
def exampleB : User := ⟨"idB", "bob", "tokB", none, some 110⟩

/-- Cooldown `0` at time `100`. -/
def exampleC : User := ⟨"idC", "carol", "tokC", none, some 100⟩

def exampleUsers : List User := [exampleA, exampleB, exampleC]

/-- What `Pool.put` does with the chosen user's outcome: a returned value
(whatever boolean it is) becomes `True`, a raised exception propagates. -/
def liftPut : PutResult → PoolPutResult
  | .ret _ => .ret true
  | .raised e => .raised e

/-- A response none of whose branches fire: not the UNAUTHORIZED shape,
acts without `nextAvailablePixelTimestamp`, errors without a
`nextAvailablePixelTs` extension. -/
def fallThroughResp : Response :=
  ⟨some true, none, some [none, none], some [⟨none⟩, ⟨some none⟩]⟩

/-- An errors-envelope response with `nextAvailablePixelTs = 1000` ms:
the user's `put` stores `next = 1` and returns `False`. -/
def notAppliedResp : Response :=
  ⟨none, none, none, some [⟨some (some 1000)⟩]⟩

/-- A success envelope whose `nextAvailablePixelTimestamp` is 62 days in
milliseconds — past the 31-day sanity threshold at time `0`. -/
def longCooldownResp : Response :=
  ⟨none, none, some [some 5356800000], none⟩

/-- The same 62-day timestamp delivered through the *errors* envelope, as
a `nextAvailablePixelTs` extension, with no data acts. -/
def longCooldownErrResp : Response :=
  ⟨none, none, none, some [⟨some (some 5356800000)⟩]⟩

def preBanUser : User := ⟨"idD", "dave", "tokD", some "r", none⟩

/-- `preBanUser` after the long-cooldown response: `next = 5356800`. -/
def postBanUser : User := { preBanUser with next := some 5356800 }

def zeroNextUser : User := ⟨"idF", "frank", "tokF", none, some 0⟩

/-! ### Theorems -/

lemma and255_eq_mod (x : Nat) : x &&& _FLT = x % 256 := by
  have h := Nat.and_pow_two_sub_one_eq_mod x 8
  norm_num at h
  simpa [_FLT] using h

lemma pack_arith (r g b : Nat) :
    pack r g b = r % 256 + 256 * (g % 256) + 65536 * (b % 256) := by
  have hr : _FLT &&& r = r % 256 := by rw [Nat.and_comm]; exact and255_eq_mod r
  have hg : _FLT &&& g = g % 256 := by rw [Nat.and_comm]; exact and255_eq_mod g
  have hb : _FLT &&& b = b % 256 := by rw [Nat.and_comm]; exact and255_eq_mod b
  have hrlt : r % 256 < 256 := Nat.mod_lt _ (by norm_num)
  have hglt : g % 256 < 256 := Nat.mod_lt _ (by norm_num)
  have hlow : r % 256 + 256 * (g % 256) < 65536 := by omega
  have h1 : (g % 256) <<< 8 = 2 ^ 8 * (g % 256) := by
    rw [Nat.shiftLeft_eq]; ring
  have h2 : (b % 256) <<< 16 = 2 ^ 16 * (b % 256) := by
    rw [Nat.shiftLeft_eq]; ring
  have step1 : (r % 256) ||| ((g % 256) <<< 8) = r % 256 + 256 * (g % 256) := by
    rw [h1, Nat.or_comm, ← Nat.mul_add_lt_is_or (by simpa using hrlt) (g % 256)]
    norm_num; ring
  have step2 : (r % 256 + 256 * (g % 256)) ||| ((b % 256) <<< 16)
      = r % 256 + 256 * (g % 256) + 65536 * (b % 256) := by
    rw [h2, Nat.or_comm, ← Nat.mul_add_lt_is_or (by simpa using hlow) (b % 256)]
    norm_num; ring
  calc pack r g b
      = (r % 256) ||| ((g % 256) <<< 8) ||| ((b % 256) <<< 16) := by
        unfold pack; rw [hr, hg, hb]
    _ = (r % 256 + 256 * (g % 256)) ||| ((b % 256) <<< 16) := by rw [step1]
    _ = r % 256 + 256 * (g % 256) + 65536 * (b % 256) := step2

lemma unpack_arith (n : Nat) :
    unpack n = (n % 256, n / 256 % 256, n / 65536 % 256) := by
  unfold unpack
  rw [and255_eq_mod, and255_eq_mod, and255_eq_mod,
    Nat.shiftRight_eq_div_pow, Nat.shiftRight_eq_div_pow]

/-- C2: for every 8-bit triple, `unpack (pack r g b) = (r, g, b)`; `pack`
puts red in the low byte, green in the middle, blue in the high byte, and
masks each channel to 8 bits, so out-of-range inputs are truncated rather
than rejected (`pack (256+5) 0 0 = pack 5 0 0`). -/
theorem pack_unpack_roundtrip :
    (∀ r g b : Nat, r < 256 → g < 256 → b < 256 →
      unpack (pack r g b) = (r, g, b)) ∧
    (∀ r g b : Nat, pack r g b = pack (r % 256) (g % 256) (b % 256)) ∧
    pack (256 + 5) 0 0 = pack 5 0 0 := by
  refine ⟨?_, ?_, ?_⟩
  · intro r g b hr hg hb
    rw [pack_arith, unpack_arith]
    have : r % 256 = r := Nat.mod_eq_of_lt hr
    have : g % 256 = g := Nat.mod_eq_of_lt hg
    have : b % 256 = b := Nat.mod_eq_of_lt hb
    refine Prod.ext ?_ (Prod.ext ?_ ?_) <;> simp <;> omega
  · intro r g b
    rw [pack_arith, pack_arith]
    omega
  · rfl

/-- C2 witness: the round-trip and truncation at concrete inputs. -/
theorem pack_unpack_roundtrip_witness :
    unpack (pack 7 130 255) = (7, 130, 255) ∧ pack (256 + 5) 0 0 = pack 5 0 0 :=
  ⟨pack_unpack_roundtrip.1 7 130 255 (by norm_num) (by norm_num) (by norm_num),
   pack_unpack_roundtrip.2.2⟩

/-- C1: the claim says `closest` skips palette entries without a defined
RGB mapping and returns BLACK for `(0,0,0)`.  The code does not skip
them: the very first enum member, `DARK_RED` (identifier 1), maps to the
empty tuple in `_color_map`, so the unpacking `cr, cg, cb = ...` raises
`ValueError` before any distance is computed — `closest` raises on every
input and never returns a palette entry. -/
theorem closest_raises_on_first_member :
    closest 0 0 0 = .error (.valueError 1) ∧
    closest 255 255 255 = .error (.valueError 1) ∧
    closest 1 1 1 = .error (.valueError 1) ∧
    to_tuple3 RedditColor.GREEN = .error (.keyError 7) := by
  refine ⟨rfl, rfl, rfl, rfl⟩

/-! ### Lemmas about the `Pool.best` fold -/

lemma bestStep_invariant (now : ℚ) :
    ∀ (l : List User) (bu : User),
      ∃ ru, l.foldl (bestStep now) (some (bu, bu.cooldown now))
          = some (ru, ru.cooldown now) ∧
        (ru = bu ∨ ru ∈ l) ∧ ru.cooldown now ≤ bu.cooldown now ∧
        ∀ v ∈ l, ru.cooldown now ≤ v.cooldown now := by
  intro l
  induction l with
  | nil => exact fun bu => ⟨bu, rfl, Or.inl rfl, le_refl _, by simp⟩
  | cons u rest ih =>
    intro bu
    by_cases h : u.cooldown now < bu.cooldown now
    · obtain ⟨ru, hfold, hmem, hle, hall⟩ := ih u
      refine ⟨ru, ?_, ?_, ?_, ?_⟩
      · simpa [List.foldl_cons, bestStep, h] using hfold
      · rcases hmem with h1 | h1
        · exact Or.inr (by simp [h1])
        · exact Or.inr (by simp [h1])
      · exact le_trans hle (le_of_lt h)
      · intro v hv
        rcases List.mem_cons.mp hv with h1 | h1
        · exact h1 ▸ hle
        · exact hall v h1
    · obtain ⟨ru, hfold, hmem, hle, hall⟩ := ih bu
      refine ⟨ru, ?_, ?_, hle, ?_⟩
      · simpa [List.foldl_cons, bestStep, h] using hfold
      · rcases hmem with h1 | h1
        · exact Or.inl h1
        · exact Or.inr (by simp [h1])
      · intro v hv
        rcases List.mem_cons.mp hv with h1 | h1
        · exact h1 ▸ le_trans hle (not_lt.mp h)
        · exact hall v h1

lemma poolBest_cons (u : User) (rest : List User) (now : ℚ) :
    ∃ ru, poolBest (u :: rest) now = some ru ∧
      (ru = u ∨ ru ∈ rest) ∧
      ∀ v ∈ u :: rest, ru.cooldown now ≤ v.cooldown now := by
  obtain ⟨ru, hfold, hmem, hle, hall⟩ := bestStep_invariant now rest u
  refine ⟨ru, ?_, hmem, ?_⟩
  · show (List.foldl (bestStep now) none (u :: rest)).map Prod.fst = some ru
    rw [List.foldl_cons]
    have hs : bestStep now none u = some (u, u.cooldown now) := rfl
    rw [hs, hfold]
    rfl
  · intro v hv
    rcases List.mem_cons.mp hv with h1 | h1
    · exact h1 ▸ hle
    · exact hall v h1

/-- C7: `cooldownRemaining` is `nextEligibleTime - now`, an absent
`nextEligibleTime` counting as `0`, and the result can be negative for an
already-eligible account. -/
theorem cooldown_spec :
    (∀ (u : User) (now : ℚ), u.cooldown now = u.next.getD 0 - now) ∧
    User.cooldown ⟨"idA", "alice", "tokA", none, some 95⟩ 100 = -5 ∧
    User.cooldown ⟨"idA", "alice", "tokA", none, none⟩ 7 = -7 := by
  refine ⟨?_, by norm_num [User.cooldown, pyOrZero], by norm_num [User.cooldown, pyOrZero]⟩
  intro u now
  unfold User.cooldown pyOrZero
  match h : u.next with
  | none => simp
  | some v =>
    by_cases hv : v = 0 <;> simp [hv]

/-- C6: `anyReady` is true iff some account has `cooldownRemaining ≤ 0`;
`readyCount` counts the accounts with `cooldownRemaining ≤ 0`; `best`
returns `None` exactly on an empty pool and otherwise an account of
minimal `cooldownRemaining`; on cooldowns `{-5, 10, 0}` at time `100`,
`anyReady` is true, `readyCount` is `2`, and `best` is the `-5` account. -/
theorem pool_queries_spec :
    (∀ (users : List User) (now : ℚ),
      poolAny users now = true ↔ ∃ u ∈ users, u.cooldown now ≤ 0) ∧
    (∀ (users : List User) (now : ℚ),
      poolReady users now
        = (users.filter (fun u => u.cooldown now ≤ 0)).length) ∧
    (∀ (users : List User) (now : ℚ),
      poolBest users now = none ↔ users = []) ∧
    (∀ (users : List User) (now : ℚ) (ru : User),
      poolBest users now = some ru →
        ru ∈ users ∧ ∀ v ∈ users, ru.cooldown now ≤ v.cooldown now) ∧
    (poolAny exampleUsers 100 = true ∧ poolReady exampleUsers 100 = 2 ∧
      poolBest exampleUsers 100 = some exampleA) := by
  refine ⟨?_, ?_, ?_, ?_, ?_, ?_, ?_⟩
  · intro users now
    simp [poolAny, List.any_eq_true]
  · intro users now
    simp [poolReady, List.countP_eq_length_filter]
  · intro users now
    cases users with
    | nil => simp [poolBest]
    | cons u rest =>
      obtain ⟨ru, hbest, _, _⟩ := poolBest_cons u rest now
      simp [hbest]
  · intro users now ru hru
    cases users with
    | nil => simp [poolBest] at hru
    | cons u rest =>
      obtain ⟨ru', hbest, hmem, hall⟩ := poolBest_cons u rest now
      rw [hbest] at hru
      cases hru
      refine ⟨?_, hall⟩
      rcases hmem with h1 | h1
      · simp [h1]
      · simp [h1]
  · norm_num [poolAny, exampleUsers, exampleA, exampleB, exampleC,
      User.cooldown, pyOrZero]
  · norm_num [poolReady, exampleUsers, exampleA, exampleB, exampleC,
      User.cooldown, pyOrZero, List.countP, List.countP.go]
  · norm_num [poolBest, exampleUsers, bestStep, exampleA, exampleB,
      exampleC, User.cooldown, pyOrZero]

/-- C6 witness: minimality of `best` extracted from the theorem on the
concrete three-account pool. -/
theorem pool_queries_spec_witness :
    exampleA ∈ exampleUsers ∧
    User.cooldown exampleA 100 ≤ User.cooldown exampleB 100 := by
  have h := pool_queries_spec.2.2.2.1 exampleUsers 100 exampleA
    (by norm_num [poolBest, exampleUsers, bestStep, exampleA, exampleB,
      exampleC, User.cooldown, pyOrZero])
  exact ⟨h.1, h.2 exampleB (by simp [exampleUsers])⟩


lemma poolPut_eligible_head (resp : Response) (now : ℚ) (u : User)
    (post : List User) (hu : u.cooldown now ≤ 0) :
    poolPut resp now (u :: post)
      = ((u.put resp now).1 :: post, liftPut (u.put resp now).2) := by
  rcases h : u.put resp now with ⟨u', r⟩
  cases r <;> simp [poolPut, hu, h, liftPut]

lemma poolPut_skip_ineligible (resp : Response) (now : ℚ) :
    ∀ (pre : List User) (u : User) (post : List User),
      (∀ v ∈ pre, 0 < v.cooldown now) → u.cooldown now ≤ 0 →
      poolPut resp now (pre ++ u :: post)
        = (pre ++ (u.put resp now).1 :: post, liftPut (u.put resp now).2) := by
  intro pre
  induction pre with
  | nil =>
    intro u post _ hu
    simpa using poolPut_eligible_head resp now u post hu
  | cons v pre ih =>
    intro u post hpre hu
    have hv : ¬ v.cooldown now ≤ 0 := not_le.mpr (hpre v (by simp))
    have hrec := ih u post (fun w hw => hpre w (by simp [hw])) hu
    simp [poolPut, hv, hrec]

lemma poolPut_no_eligible (resp : Response) (now : ℚ) :
    ∀ users : List User, (∀ v ∈ users, 0 < v.cooldown now) →
      poolPut resp now users = (users, .ret false) := by
  intro users
  induction users with
  | nil => intro _; rfl
  | cons v rest ih =>
    intro h
    have hv : ¬ v.cooldown now ≤ 0 := not_le.mpr (h v (by simp))
    have hrec := ih (fun w hw => h w (by simp [hw]))
    simp [poolPut, hv, hrec]

/-- C5: `Pool.put` scans accounts in collection order and delegates to
the *first* account with `cooldownRemaining ≤ 0` (whatever the cooldowns
of later eligible accounts are), and returns `False` when no account is
eligible. -/
theorem pool_put_first_eligible :
    (∀ (resp : Response) (now : ℚ) (pre : List User) (u : User)
        (post : List User),
      (∀ v ∈ pre, 0 < v.cooldown now) → u.cooldown now ≤ 0 →
      poolPut resp now (pre ++ u :: post)
        = (pre ++ (u.put resp now).1 :: post, liftPut (u.put resp now).2)) ∧
    (∀ (resp : Response) (now : ℚ) (users : List User),
      (∀ v ∈ users, 0 < v.cooldown now) →
      poolPut resp now users = (users, .ret false)) :=
  ⟨fun resp now pre u post h hu => poolPut_skip_ineligible resp now pre u post h hu,
   fun resp now users h => poolPut_no_eligible resp now users h⟩

/-- C5 witness: with order `[B (10), C (0), A (-5)]` at time `100`, the
pool delegates to `C`, the first eligible account, not to `A`, the one
with the smallest cooldown; and a pool with only ineligible `B` returns
`False`. -/
theorem pool_put_first_eligible_witness :
    poolPut fallThroughResp 100 [exampleB, exampleC, exampleA]
      = ([exampleB, (exampleC.put fallThroughResp 100).1, exampleA],
         liftPut (exampleC.put fallThroughResp 100).2) ∧
    poolPut fallThroughResp 100 [exampleB] = ([exampleB], .ret false) := by
  constructor
  · exact pool_put_first_eligible.1 fallThroughResp 100 [exampleB] exampleC
      [exampleA]
      (by intro v hv
          simp only [List.mem_singleton] at hv
          subst hv
          norm_num [User.cooldown, exampleB, pyOrZero])
      (by norm_num [User.cooldown, exampleC, pyOrZero])
  · exact pool_put_first_eligible.2 fallThroughResp 100 [exampleB]
      (by intro v hv
          simp only [List.mem_singleton] at hv
          subst hv
          norm_num [User.cooldown, exampleB, pyOrZero])

/-- C9: when some account is eligible, `Pool.put` returns `True` no
matter which value the chosen account's `put` returned — the delegate's
boolean (and even its `None` fall-through) is discarded. -/
theorem pool_put_discards_result :
    ∀ (resp : Response) (now : ℚ) (pre : List User) (u : User)
      (post : List User) (b : Option Bool),
      (∀ v ∈ pre, 0 < v.cooldown now) → u.cooldown now ≤ 0 →
      (u.put resp now).2 = .ret b →
      (poolPut resp now (pre ++ u :: post)).2 = .ret true := by
  intro resp now pre u post b hpre hu hret
  rw [poolPut_skip_ineligible resp now pre u post hpre hu]
  simp [liftPut, hret]

/-- C9 witness: `exampleC`'s own `put` on the errors-envelope response
returns `False` (pixel not applied, cooldown updated), yet the pool
reports `True`. -/
theorem pool_put_discards_result_witness :
    (exampleC.put notAppliedResp 100).2 = PutResult.ret (some false) ∧
    (poolPut notAppliedResp 100 [exampleB, exampleC]).2
      = PoolPutResult.ret true := by
  have hret : (exampleC.put notAppliedResp 100).2 = .ret (some false) := by
    norm_num [User.put, putErrorsBranch, isUnauthorizedShape, notAppliedResp,
      firstErrTs, monthSeconds, exampleC]
  refine ⟨hret, ?_⟩
  have h := pool_put_discards_result notAppliedResp 100 [exampleB] exampleC []
    (some false)
    (by intro v hv
        simp only [List.mem_singleton] at hv
        subst hv
        norm_num [User.cooldown, exampleB, pyOrZero])
    (by norm_num [User.cooldown, exampleC, pyOrZero])
    hret
  simpa using h

/-- C3 counterexample: on a response whose next-eligible timestamp is 62
days ahead (at time `0`), `User.put` raises the non-refreshable
`UnauthorizedError` but *does* update `next` to the implausible value
`5356800` first; and the account is not excluded from future eligibility
regardless — once that timestamp passes (time `5356801`) its cooldown is
`≤ 0` again and the pool counts it as ready. -/
theorem put_long_cooldown_counterexample :
    preBanUser.put longCooldownResp 0
      = (postBanUser, .raised ⟨"Rate limited: cooldown too long", false⟩) ∧
    postBanUser.next = some 5356800 ∧
    User.cooldown postBanUser 5356801 ≤ 0 ∧
    poolAny [postBanUser] 5356801 = true := by
  refine ⟨?_, rfl, ?_, ?_⟩
  · norm_num [User.put, isUnauthorizedShape, longCooldownResp, firstActTs,
      monthSeconds, preBanUser, postBanUser]
  · norm_num [User.cooldown, postBanUser, preBanUser, pyOrZero]
  · norm_num [poolAny, User.cooldown, postBanUser, preBanUser, pyOrZero]

/-- C3 (amended): on a response carrying a timestamp more than 31 days
past `now` — whether as the first act's `nextAvailablePixelTimestamp` in
the data envelope or, with no act timestamp, as the first
`nextAvailablePixelTs` errors extension — `User.put` updates `next` to
`ts / 1000` and then raises `UnauthorizedError(refreshable := false)`;
an account with such a `next` has positive cooldown (ineligible) at
*every* instant before that timestamp and cooldown `≤ 0` (eligible
again) at *every* instant from the timestamp on: the exclusion is not
permanent. -/
theorem put_long_cooldown_amended :
    (∀ (u : User) (resp : Response) (now ts : ℚ) (acts : List (Option ℚ)),
      isUnauthorizedShape resp = false →
      resp.dataActs = some acts →
      firstActTs acts = some ts →
      monthSeconds < ts / 1000 - now →
      0 ≤ now →
      u.put resp now
        = ({ u with next := some (ts / 1000) },
           .raised ⟨"Rate limited: cooldown too long", false⟩)) ∧
    (∀ (u : User) (resp : Response) (now ts : ℚ) (errs : List ErrEntry),
      isUnauthorizedShape resp = false →
      (∀ acts, resp.dataActs = some acts → firstActTs acts = none) →
      resp.errors = some errs →
      firstErrTs errs = some ts →
      monthSeconds < ts / 1000 - now →
      0 ≤ now →
      u.put resp now
        = ({ u with next := some (ts / 1000) },
           .raised ⟨"Rate limited: cooldown too long", false⟩)) ∧
    (∀ (u : User) (ts t : ℚ), 0 < ts / 1000 →
      (t < ts / 1000 →
        0 < ({ u with next := some (ts / 1000) } : User).cooldown t) ∧
      (ts / 1000 ≤ t →
        ({ u with next := some (ts / 1000) } : User).cooldown t ≤ 0)) := by
  have hmonth : (0 : ℚ) < monthSeconds := by norm_num [monthSeconds]
  refine ⟨?_, ?_, ?_⟩
  · intro u resp now ts acts hshape hdata hts hlong hnow
    have hpos : (0 : ℚ) < ts / 1000 := by nlinarith
    have hcond : ts / 1000 ≠ 0 ∧ ts / 1000 - now > monthSeconds :=
      ⟨ne_of_gt hpos, hlong⟩
    simp only [User.put, hshape, Bool.false_eq_true, if_false, hdata, hts]
    rw [if_pos hcond]
  · intro u resp now ts errs hshape hacts herrs hts hlong hnow
    have hpos : (0 : ℚ) < ts / 1000 := by nlinarith
    have hcond : ts / 1000 ≠ 0 ∧ ts / 1000 - now > monthSeconds :=
      ⟨ne_of_gt hpos, hlong⟩
    have herrbranch : putErrorsBranch u resp now
        = ({ u with next := some (ts / 1000) },
           .raised ⟨"Rate limited: cooldown too long", false⟩) := by
      simp only [putErrorsBranch, herrs, hts]
      rw [if_pos hcond]
    match hd : resp.dataActs with
    | none => simp [User.put, hshape, hd, herrbranch]
    | some acts => simp [User.put, hshape, hd, hacts acts hd, herrbranch]
  · intro u ts t hpos
    have hne : ts / 1000 ≠ 0 := ne_of_gt hpos
    have hval : pyOrZero (some (ts / 1000)) = ts / 1000 := by
      simp [pyOrZero, hne]
    constructor
    · intro ht
      show 0 < pyOrZero (some (ts / 1000)) - t
      rw [hval]
      linarith
    · intro ht
      show pyOrZero (some (ts / 1000)) - t ≤ 0
      rw [hval]
      linarith

/-- C3 witness: the amended statement at the concrete 62-day responses —
once through the data envelope, once through the errors envelope — plus
the before/after eligibility facts at instants on each side of the
stored timestamp. -/
theorem put_long_cooldown_amended_witness :
    preBanUser.put longCooldownResp 0
      = (postBanUser, .raised ⟨"Rate limited: cooldown too long", false⟩) ∧
    preBanUser.put longCooldownErrResp 0
      = (postBanUser, .raised ⟨"Rate limited: cooldown too long", false⟩) ∧
    0 < User.cooldown postBanUser 2678400 ∧
    User.cooldown postBanUser 5356801 ≤ 0 := by
  refine ⟨?_, ?_, ?_, ?_⟩
  · have h := put_long_cooldown_amended.1 preBanUser longCooldownResp 0
      5356800000 [some 5356800000] rfl rfl rfl (by norm_num [monthSeconds])
      le_rfl
    norm_num [postBanUser, preBanUser] at h ⊢
    exact h
  · have h := put_long_cooldown_amended.2.1 preBanUser longCooldownErrResp 0
      5356800000 [⟨some (some 5356800000)⟩] rfl
      (fun acts hacts => Option.noConfusion hacts) rfl rfl
      (by norm_num [monthSeconds]) le_rfl
    norm_num [postBanUser, preBanUser] at h ⊢
    exact h
  · have h := (put_long_cooldown_amended.2.2 preBanUser 5356800000 2678400
      (by norm_num)).1 (by norm_num)
    norm_num [postBanUser, preBanUser] at h ⊢
    exact h
  · have h := (put_long_cooldown_amended.2.2 preBanUser 5356800000 5356801
      (by norm_num)).2 (by norm_num)
    norm_num [postBanUser, preBanUser] at h ⊢
    exact h

/-- C4 counterexample: with no refresh token on file, `refresh_token`
leaves the account unchanged and raises `UnauthorizedError` with the
constructor's *default* `refreshable = True` — not a distinct
`NoRefreshTokenError`, and not surfaced like the non-refreshable
(`refreshable = False`) unauthorized failure. -/
theorem refresh_no_token_counterexample :
    User.refresh_token ⟨"idE", "erin", "tokE", none, none⟩ "newTok" "newName"
      = (⟨"idE", "erin", "tokE", none, none⟩, some ⟨"No refresh token", true⟩) ∧
    ({ message := "No refresh token", refreshable := true } :
        UnauthorizedErr).refreshable ≠ false := by
  refine ⟨?_, by simp⟩
  simp [User.refresh_token]

/-- C4 (amended): when `refreshToken` is absent, empty, or the literal
`"null"` sentinel, `refresh_token` raises
`UnauthorizedError("No refresh token")` with `refreshable = true` and
leaves the account — in particular `accessToken` — unchanged. -/
theorem refresh_no_token_amended :
    ∀ (u : User) (newToken newName : String),
      u.refresh = none ∨ u.refresh = some "" ∨ u.refresh = some "null" →
      u.refresh_token newToken newName
        = (u, some ⟨"No refresh token", true⟩) := by
  intro u nt nn h
  simp [User.refresh_token, h]

/-- C4 witness: the amended statement on a concrete account whose
refresh token is the `"null"` sentinel. -/
theorem refresh_no_token_amended_witness :
    User.refresh_token ⟨"idE", "erin", "tokE", some "null", none⟩ "nt" "nn"
      = (⟨"idE", "erin", "tokE", some "null", none⟩,
         some ⟨"No refresh token", true⟩) :=
  refresh_no_token_amended ⟨"idE", "erin", "tokE", some "null", none⟩ "nt" "nn"
    (Or.inr (Or.inr rfl))

/-- C8 counterexample: an account with `next = 0` (present, not absent)
does not survive the round trip: `as_dict` writes `self.next or None`,
turning the falsy `0` into JSON `null`, so the reloaded account has
`next` absent while the original — even after the claim's normalisation
of absent and `"null"`-sentinel fields — still has `next = 0`. -/
theorem save_load_counterexample :
    saveLoad zeroNextUser ≠ specNormalize zeroNextUser ∧
    (saveLoad zeroNextUser).next = none ∧
    (specNormalize zeroNextUser).next = some 0 := by
  have h1 : (saveLoad zeroNextUser).next = none := by
    norm_num [saveLoad, loadUser, User.as_dict, pyOrNoneStr, pyOrNoneQ,
      zeroNextUser]
  refine ⟨?_, h1, rfl⟩
  intro h
  rw [h] at h1
  norm_num [specNormalize, zeroNextUser] at h1
  exact Option.noConfusion h1

/-- C8 (amended): save-then-load always preserves `id`, `name` and
`token`; it preserves `refresh` unless that field is the empty string or
the `"null"` sentinel (both normalised to absent) and preserves `next`
unless it is `0` (normalised to absent); when none of those falsy or
sentinel values occur the reloaded account equals the original exactly. -/
theorem save_load_roundtrip_amended :
    ∀ u : User,
      (saveLoad u).id = u.id ∧ (saveLoad u).name = u.name ∧
      (saveLoad u).token = u.token ∧
      (u.refresh ≠ some "" → u.refresh ≠ some "null" →
        (saveLoad u).refresh = u.refresh) ∧
      (u.next ≠ some 0 → (saveLoad u).next = u.next) ∧
      (u.refresh ≠ some "" → u.refresh ≠ some "null" → u.next ≠ some 0 →
        saveLoad u = u) := by
  intro u
  obtain ⟨i, nm, tk, r, x⟩ := u
  refine ⟨rfl, rfl, rfl, ?_, ?_, ?_⟩
  · intro h1 h2
    match r with
    | none => rfl
    | some s =>
      have hs1 : s ≠ "" := fun h => h1 (by rw [h])
      have hs2 : s ≠ "null" := fun h => h2 (by rw [h])
      simp [saveLoad, loadUser, User.as_dict, pyOrNoneStr, hs1, hs2]
  · intro h
    match x with
    | none => rfl
    | some v =>
      have hv : v ≠ 0 := fun hv0 => h (by rw [hv0])
      simp [saveLoad, loadUser, User.as_dict, pyOrNoneQ, hv]
  · intro h1 h2 h3
    match r, x with
    | none, none => rfl
    | none, some v =>
      have hv : v ≠ 0 := fun hv0 => h3 (by rw [hv0])
      simp [saveLoad, loadUser, User.as_dict, pyOrNoneStr, pyOrNoneQ, hv]
    | some s, none =>
      have hs1 : s ≠ "" := fun h => h1 (by rw [h])
      have hs2 : s ≠ "null" := fun h => h2 (by rw [h])
      simp [saveLoad, loadUser, User.as_dict, pyOrNoneStr, pyOrNoneQ, hs1, hs2]
    | some s, some v =>
      have hs1 : s ≠ "" := fun h => h1 (by rw [h])
      have hs2 : s ≠ "null" := fun h => h2 (by rw [h])
      have hv : v ≠ 0 := fun hv0 => h3 (by rw [hv0])
      simp [saveLoad, loadUser, User.as_dict, pyOrNoneStr, pyOrNoneQ,
        hs1, hs2, hv]

/-- C8 witness: a fully-populated account (non-falsy refresh and next)
round-trips exactly. -/
theorem save_load_roundtrip_amended_witness :
    saveLoad ⟨"idH", "hana", "tokH", some "refH", some 42⟩
      = ⟨"idH", "hana", "tokH", some "refH", some 42⟩ :=
  (save_load_roundtrip_amended ⟨"idH", "hana", "tokH", some "refH", some 42⟩
    ).2.2.2.2.2 (by simp) (by simp) (by norm_num)

/-- C10: a response that is not the UNAUTHORIZED shape, whose data acts
(if any) carry no `nextAvailablePixelTimestamp` and whose errors entries
(if any) carry no `nextAvailablePixelTs` extension makes `User.put` fall
through every branch: it returns Python's implicit `None` — neither
`True` nor `False` — and leaves the account unchanged. -/
theorem put_fall_through :
    ∀ (u : User) (resp : Response) (now : ℚ),
      isUnauthorizedShape resp = false →
      (∀ acts, resp.dataActs = some acts → firstActTs acts = none) →
      (∀ errs, resp.errors = some errs → firstErrTs errs = none) →
      u.put resp now = (u, .ret none) := by
  intro u resp now hshape hacts herrs
  have herrbranch : putErrorsBranch u resp now = (u, .ret none) := by
    match he : resp.errors with
    | none => simp [putErrorsBranch, he]
    | some errs => simp [putErrorsBranch, he, herrs errs he]
  match hd : resp.dataActs with
  | none => simp [User.put, hshape, hd, herrbranch]
  | some acts => simp [User.put, hshape, hd, hacts acts hd, herrbranch]

/-- C10 witness: the fall-through response — acts and errors present but
without the timestamp fields — returns `None` and mutates nothing. -/
theorem put_fall_through_witness :
    User.put ⟨"idG", "gina", "tokG", none, none⟩ fallThroughResp 0
      = (⟨"idG", "gina", "tokG", none, none⟩, .ret none) :=
  put_fall_through ⟨"idG", "gina", "tokG", none, none⟩ fallThroughResp 0
    rfl
    (by intro acts h; cases h; rfl)
    (by intro errs h; cases h; rfl)

end Pooplace
